import Mathlib

/-
Verification of the orchestration core of `pretty_printers_tests/src/main.rs`
(intellij-rust pretty-printer test runner).

The program:
  * loads a settings store and looks up `test_dir` (fatal `unwrap` on failure),
  * lists that directory with `read_dir` (fatal on failure),
  * builds an `LLDBConfig` record from five further required keys
    (`pretty_printers_path`, `lldb_batchmode`, `lldb_lookup`,
    `print_lldb_stdout`, `lldb_native_rust`; all fatal `unwrap`) and one
    optional key `lldb_python` (`unwrap_or_default`, i.e. empty string),
  * then loops over the discovered paths: for each path it constructs an
    `LLDBTestRunner` and calls `run()`, derives the display file name via
    `path.file_name().unwrap().to_str().unwrap()` (fatal on either `None`),
    prints `"<name>: passed"` on `Ok`, or `"<name>: failed"` plus the
    diagnostic on `Err` (also setting the aggregate status to `Err(())`),
  * and finally returns the aggregate status from `main`.

The embedding below is a shallow model of exactly this control flow.  The
external collaborators are parameters: the settings store is a record of
`Option`-valued lookups (`none` models an absent or type-mismatched key),
directory listing is a function `String → Option (List TestInput)` (`none`
models a `read_dir` failure or an unreadable entry), and the backend is a
function `LLDBConfig → TestInput → RunOutcome` modelling
`LLDBTestRunner { config, src_path }.run()`.  Side effects (backend
invocations, lines printed by `println!`, the `read_dir` attempt) are
recorded as an explicit event trace; a Rust `panic!` / failed `unwrap` is
modelled as the `fatal` constructor carrying the events that happened
before the abort.
-/

namespace PrettyPrinterTests

/-- Result of one backend `run()` call: `Result<(), String>` in the source.
`passed` is `Ok(())`, `failed e` is `Err(e)` with diagnostic `e`. -/
inductive RunOutcome where
  | passed : RunOutcome
  | failed : String → RunOutcome
deriving DecidableEq

/-- One discovered test path, as the list of its path components.  A
component is `some s` when the `OsStr` component decodes to the Unicode
string `s`, and `none` when it does not (so `to_str()` would fail on it). -/
structure TestInput where
  components : List (Option String)
deriving DecidableEq

/-- Model of `path.file_name().and_then(|n| n.to_str())`: the last path
component, unless there is none, it is the parent marker `..` (on which
Rust's `file_name()` returns `None`), or it does not decode to Unicode.
(`read_dir` never yields `.`/`..` entries, so `CurDir` normalisation is
irrelevant and not modelled.) -/
def TestInput.fileName? (t : TestInput) : Option String :=
  match t.components.getLast? with
  | none => none
  | some none => none
  | some (some c) => if c = ".." then none else some c

/-- The configuration record of the source, field for field
(`with_output` mirrors the source field fed from `print_lldb_stdout`). -/
structure LLDBConfig where
  pretty_printers_path : String
  lldb_batchmode : String
  lldb_python : String
  lldb_lookup : String
  with_output : Bool
  lldb_native_rust : Bool
deriving DecidableEq

/-- The settings store, one field per key the program looks up.  A field is
`none` when `settings.get::<T>(key)` returns `Err` (key absent or its value
not convertible to `T`), and `some v` when the lookup yields `v`.  The
settings file itself is assumed loaded (a missing `Settings` file aborts
even before the `test_dir` lookup and is outside every claim). -/
structure Settings where
  test_dir : Option String
  pretty_printers_path : Option String
  lldb_batchmode : Option String
  lldb_python : Option String
  lldb_lookup : Option String
  print_lldb_stdout : Option Bool
  lldb_native_rust : Option Bool
deriving DecidableEq

/-- Construction of the `LLDBConfig` struct literal: every field is a fatal
`unwrap` except `lldb_python`, which is `unwrap_or_default()` (empty
string).  `none` models the panic. -/
def buildConfig (s : Settings) : Option LLDBConfig :=
  match s.pretty_printers_path, s.lldb_batchmode, s.lldb_lookup,
        s.print_lldb_stdout, s.lldb_native_rust with
  | some pp, some bm, some lk, some out, some nat =>
      some { pretty_printers_path := pp
             lldb_batchmode := bm
             lldb_python := s.lldb_python.getD ""
             lldb_lookup := lk
             with_output := out
             lldb_native_rust := nat }
  | _, _, _, _, _ => none

/-- Observable steps of a run, in program order: the `read_dir` call on the
test directory, one `invoke` per backend `run()` call, and one `line` per
`println!`. -/
inductive Event where
  | readDirAttempt : String → Event
  | invoke : TestInput → Event
  | line : String → Event
deriving DecidableEq

deriving instance DecidableEq for Except

/-- Process-level result: `fatal evs` is a panic (failed `unwrap`) after
the events `evs`; `exit evs st` is a normal return of `st` from `main`
(`Except.ok ()` exits successfully, `Except.error ()` unsuccessfully). -/
inductive MainResult where
  | fatal : List Event → MainResult
  | exit : List Event → Except Unit Unit → MainResult
deriving DecidableEq

/-- The events of a run, whether it panicked or exited. -/
def MainResult.events : MainResult → List Event
  | .fatal evs => evs
  | .exit evs _ => evs

/-- The exit status of a run: `none` for a panic, `some st` for a normal
return of `st`. -/
def MainResult.status? : MainResult → Option (Except Unit Unit)
  | .fatal _ => none
  | .exit _ st => some st

/-- Body of one loop iteration, given the backend (already closed over the
config).  The order mirrors the source: `run()` is called first, then the
file name is derived (fatal if underivable), then the match on the result
prints and updates the status.  Returns the events of the iteration and
`none` if the iteration panicked, else the updated status. -/
def processTest (run : TestInput → RunOutcome) (t : TestInput)
    (status : Except Unit Unit) : List Event × Option (Except Unit Unit) :=
  let result := run t
  match t.fileName? with
  | none => ([Event.invoke t], none)
  | some path_string =>
    match result with
    | RunOutcome.passed =>
        ([Event.invoke t, Event.line (path_string ++ ": passed")], some status)
    | RunOutcome.failed e =>
        ([Event.invoke t, Event.line (path_string ++ ": failed"), Event.line e],
         some (Except.error ()))

/-- The `for path in src_paths` loop, threading the mutable `status`.  A
panic inside an iteration stops the loop and discards the status. -/
def mainLoop (run : TestInput → RunOutcome) :
    List TestInput → Except Unit Unit → List Event × Option (Except Unit Unit)
  | [], status => ([], some status)
  | t :: rest, status =>
    match processTest run t status with
    | (evs, none) => (evs, none)
    | (evs, some status') =>
      let r := mainLoop run rest status'
      (evs ++ r.1, r.2)

/-- The whole of `fn main`, in source order: `test_dir` lookup (fatal on
failure, before anything else), `read_dir` (fatal on failure), `LLDBConfig`
construction (fatal on a missing required key, after the directory
listing), then the loop, then `status` is returned. -/
def main (settings : Settings) (readDir : String → Option (List TestInput))
    (runner : LLDBConfig → TestInput → RunOutcome) : MainResult :=
  match settings.test_dir with
  | none => MainResult.fatal []
  | some dir =>
    match readDir dir with
    | none => MainResult.fatal [Event.readDirAttempt dir]
    | some src_paths =>
      match buildConfig settings with
      | none => MainResult.fatal [Event.readDirAttempt dir]
      | some config =>
        match mainLoop (runner config) src_paths (Except.ok ()) with
        | (evs, none) => MainResult.fatal (Event.readDirAttempt dir :: evs)
        | (evs, some status) =>
            MainResult.exit (Event.readDirAttempt dir :: evs) status

/-- The lines printed, in order, extracted from an event trace. -/
def printedLines (evs : List Event) : List String :=
  evs.filterMap fun e =>
    match e with
    | Event.line s => some s
    | _ => none

/-- The test inputs the backend was invoked on, in order, extracted from an
event trace. -/
def invokedInputs (evs : List Event) : List TestInput :=
  evs.filterMap fun e =>
    match e with
    | Event.invoke t => some t
    | _ => none

/-- The lines one iteration prints for input `t` with display name `name`:
the status line, then the diagnostic on failure. -/
def reportLines (run : TestInput → RunOutcome) (name : String)
    (t : TestInput) : List String :=
  match run t with
  | RunOutcome.passed => [name ++ ": passed"]
  | RunOutcome.failed e => [name ++ ": failed", e]

/-- The status line announced for input `t` (the first of its
`reportLines`). -/
def statusLine (run : TestInput → RunOutcome) (t : TestInput) : String :=
  (t.fileName?.getD "") ++
    (match run t with
     | RunOutcome.passed => ": passed"
     | RunOutcome.failed _ => ": failed")

/-- All events of one successful iteration on `t`. -/
def testEvents (run : TestInput → RunOutcome) (t : TestInput) : List Event :=
  Event.invoke t ::
    (reportLines run (t.fileName?.getD "") t).map Event.line

/-- Functional account of the status fold: the aggregate after processing
`inputs` starting from `st`. -/
def foldStatus (run : TestInput → RunOutcome) :
    List TestInput → Except Unit Unit → Except Unit Unit
  | [], st => st
  | t :: rest, st =>
    foldStatus run rest
      (match run t with
       | RunOutcome.passed => st
       | RunOutcome.failed _ => Except.error ())

/-- All six keys the program `unwrap`s: `test_dir` plus the five required
`LLDBConfig` keys (`lldb_python` is not among them). -/
def requiredPresent (s : Settings) : Prop :=
  s.test_dir.isSome = true ∧ s.pretty_printers_path.isSome = true ∧
  s.lldb_batchmode.isSome = true ∧ s.lldb_lookup.isSome = true ∧
  s.print_lldb_stdout.isSome = true ∧ s.lldb_native_rust.isSome = true

instance (s : Settings) : Decidable (requiredPresent s) := by
  unfold requiredPresent
  infer_instance

/-- Every value of the status type is `Ok` or `Err`. -/
theorem exceptUnit_cases (x : Except Unit Unit) :
    x = Except.ok () ∨ x = Except.error () := by
  cases x with
  | ok u => cases u; exact Or.inl rfl
  | error u => cases u; exact Or.inr rfl

/-- When every input has a derivable file name, the loop runs to the end:
its trace is the concatenation of the per-test event blocks and its final
status is the fold of the outcomes over the initial status. -/
theorem mainLoop_eq_of_names (run : TestInput → RunOutcome) :
    ∀ (inputs : List TestInput) (st : Except Unit Unit),
      (∀ t ∈ inputs, (TestInput.fileName? t).isSome = true) →
      mainLoop run inputs st
        = (inputs.flatMap (testEvents run), some (foldStatus run inputs st))
  | [], _, _ => rfl
  | t :: rest, st, h => by
    obtain ⟨name, hname⟩ :=
      Option.isSome_iff_exists.mp (h t (List.mem_cons_self t rest))
    have ih := fun st' => mainLoop_eq_of_names run rest st'
      (fun u hu => h u (List.mem_cons_of_mem t hu))
    cases hrt : run t with
    | passed =>
        simp [mainLoop, processTest, hname, hrt, ih, foldStatus, testEvents,
          reportLines]
    | failed e =>
        simp [mainLoop, processTest, hname, hrt, ih, foldStatus, testEvents,
          reportLines]

/-- The fold never recovers from `Err`. -/
theorem foldStatus_error (run : TestInput → RunOutcome) :
    ∀ (inputs : List TestInput),
      foldStatus run inputs (Except.error ()) = Except.error ()
  | [] => rfl
  | t :: rest => by
    cases hrt : run t <;>
      simp [foldStatus, hrt, foldStatus_error run rest]

/-- Starting from `Ok`, the fold ends `Ok` exactly when every outcome is
`passed`. -/
theorem foldStatus_ok_iff (run : TestInput → RunOutcome) :
    ∀ (inputs : List TestInput),
      (foldStatus run inputs (Except.ok ()) = Except.ok () ↔
        ∀ t ∈ inputs, run t = RunOutcome.passed)
  | [] => by simp [foldStatus]
  | t :: rest => by
    cases hrt : run t with
    | passed =>
        simp [foldStatus, hrt, foldStatus_ok_iff run rest]
    | failed e =>
        simp [foldStatus, hrt, foldStatus_error run rest]

/-- If some input has no derivable file name, the loop panics at the first
such input: the backend has just been invoked on it, nothing is printed for
it, later inputs are never reached, and no status is produced. -/
theorem mainLoop_fatal_split (run : TestInput → RunOutcome) :
    ∀ (pre : List TestInput) (t : TestInput) (post : List TestInput)
      (st : Except Unit Unit),
      (∀ u ∈ pre, (TestInput.fileName? u).isSome = true) →
      TestInput.fileName? t = none →
      mainLoop run (pre ++ t :: post) st
        = (pre.flatMap (testEvents run) ++ [Event.invoke t], none)
  | [], t, post, st, _, ht => by
    simp [mainLoop, processTest, ht]
  | u :: pre, t, post, st, h, ht => by
    obtain ⟨name, hname⟩ :=
      Option.isSome_iff_exists.mp (h u (List.mem_cons_self u pre))
    have ih := fun st' => mainLoop_fatal_split run pre t post st'
      (fun v hv => h v (List.mem_cons_of_mem u hv)) ht
    cases hru : run u with
    | passed =>
        simp [mainLoop, processTest, hname, hru, ih, testEvents, reportLines]
    | failed e =>
        simp [mainLoop, processTest, hname, hru, ih, testEvents, reportLines]

/-- Printed lines distribute over trace concatenation. -/
theorem printedLines_append (a b : List Event) :
    printedLines (a ++ b) = printedLines a ++ printedLines b := by
  simp [printedLines, List.filterMap_append]

/-- Invoked inputs distribute over trace concatenation. -/
theorem invokedInputs_append (a b : List Event) :
    invokedInputs (a ++ b) = invokedInputs a ++ invokedInputs b := by
  simp [invokedInputs, List.filterMap_append]

/-- One iteration prints exactly its report lines. -/
theorem printedLines_testEvents (run : TestInput → RunOutcome) (t : TestInput) :
    printedLines (testEvents run t)
      = reportLines run (t.fileName?.getD "") t := by
  cases hrt : run t <;>
    simp [printedLines, testEvents, reportLines, hrt, List.filterMap_cons]

/-- One iteration invokes the backend exactly once, on its input. -/
theorem invokedInputs_testEvents (run : TestInput → RunOutcome) (t : TestInput) :
    invokedInputs (testEvents run t) = [t] := by
  cases hrt : run t <;>
    simp [invokedInputs, testEvents, reportLines, hrt, List.filterMap_cons]

/-- The lines of a completed loop are the per-test report blocks in order. -/
theorem printedLines_flatMap (run : TestInput → RunOutcome) :
    ∀ (inputs : List TestInput),
      printedLines (inputs.flatMap (testEvents run))
        = inputs.flatMap (fun t => reportLines run (t.fileName?.getD "") t)
  | [] => rfl
  | t :: rest => by
    simp [List.flatMap_cons, printedLines_append, printedLines_testEvents,
      printedLines_flatMap run rest]

/-- A completed loop invokes the backend once per input, in order. -/
theorem invokedInputs_flatMap (run : TestInput → RunOutcome) :
    ∀ (inputs : List TestInput),
      invokedInputs (inputs.flatMap (testEvents run)) = inputs
  | [] => rfl
  | t :: rest => by
    simp [List.flatMap_cons, invokedInputs_append, invokedInputs_testEvents,
      invokedInputs_flatMap run rest]

/-- The config record builds exactly when the five required config keys
resolve (the optional `lldb_python` plays no part). -/
theorem buildConfig_isSome_iff (s : Settings) :
    (buildConfig s).isSome = true ↔
      (s.pretty_printers_path.isSome = true ∧ s.lldb_batchmode.isSome = true ∧
       s.lldb_lookup.isSome = true ∧ s.print_lldb_stdout.isSome = true ∧
       s.lldb_native_rust.isSome = true) := by
  rcases s with ⟨td, pp, bm, py, lk, out, nat⟩
  cases pp <;> cases bm <;> cases lk <;> cases out <;> cases nat <;>
    simp [buildConfig]

/-- Concrete test-input fixture: `tests/<n>`, a well-formed path. -/
def sampleInput (n : String) : TestInput := ⟨[some "tests", some n]⟩

/-- Concrete fixture: a path whose final component is not valid Unicode,
so `file_name().unwrap().to_str().unwrap()` panics on it. -/
def badInput : TestInput := ⟨[some "tests", none]⟩

/-- Concrete discovery result fixture: three test files. -/
def wInputs : List TestInput :=
  [sampleInput "file1", sampleInput "file2", sampleInput "file3"]

/-- Concrete settings fixture: all required keys present, `lldb_python`
absent. -/
def wSettings : Settings :=
  ⟨some "tests", some "pp", some "bm", none, some "lk", some false, some true⟩

/-- The config `wSettings` builds. -/
def wConfig : LLDBConfig := ⟨"pp", "bm", "", "lk", false, true⟩

/-- Concrete directory-listing fixture: only `tests` exists. -/
def wReadDir : String → Option (List TestInput) :=
  fun d => if d = "tests" then some wInputs else none

/-- Backend fixture: every test passes. -/
def wRunnerPass : LLDBConfig → TestInput → RunOutcome :=
  fun _ _ => RunOutcome.passed

/-- Backend fixture: `file2` fails with a diagnostic, the rest pass
(spec Scenario B). -/
def wRunnerB : LLDBConfig → TestInput → RunOutcome :=
  fun _ t =>
    if t = sampleInput "file2" then RunOutcome.failed "type mismatch"
    else RunOutcome.passed

/-- Closed-over backend fixture: `file1` fails, the rest pass. -/
def wRun2 : TestInput → RunOutcome :=
  fun t =>
    if t = sampleInput "file1" then RunOutcome.failed "boom"
    else RunOutcome.passed

/-- C1: when configuration and discovery succeed and every input has a
derivable name, the process status is `Ok` (success) iff every backend
outcome is `passed`; one `failed` outcome anywhere makes the final status
`Err` (failure exit). -/
theorem C1_aggregate_iff_all_passed
    (s : Settings) (rd : String → Option (List TestInput))
    (runner : LLDBConfig → TestInput → RunOutcome)
    (dir : String) (inputs : List TestInput) (config : LLDBConfig)
    (h1 : s.test_dir = some dir) (h2 : rd dir = some inputs)
    (h3 : buildConfig s = some config)
    (hnames : ∀ t ∈ inputs, (TestInput.fileName? t).isSome = true) :
    ((main s rd runner).status? = some (Except.ok ()) ↔
      ∀ t ∈ inputs, runner config t = RunOutcome.passed) ∧
    ((∃ t ∈ inputs, ∃ e, runner config t = RunOutcome.failed e) →
      (main s rd runner).status? = some (Except.error ())) := by
  have hloop := mainLoop_eq_of_names (runner config) inputs (Except.ok ()) hnames
  have key : (main s rd runner).status?
      = some (foldStatus (runner config) inputs (Except.ok ())) := by
    simp [main, h1, h2, h3, hloop, MainResult.status?]
  constructor
  · rw [key]
    simp only [Option.some.injEq]
    exact foldStatus_ok_iff (runner config) inputs
  · rintro ⟨t, ht, e, he⟩
    have hne : foldStatus (runner config) inputs (Except.ok ())
        ≠ Except.ok () := by
      intro hok
      have := (foldStatus_ok_iff (runner config) inputs).mp hok t ht
      rw [he] at this
      exact RunOutcome.noConfusion this
    rcases exceptUnit_cases (foldStatus (runner config) inputs (Except.ok ()))
      with h | h
    · exact absurd h hne
    · rw [key, h]

/-- C1 witness: Scenario B (one failure → `Err`) and the all-passed run
(→ `Ok`) at concrete fixtures. -/
theorem C1_witness :
    (main wSettings wReadDir wRunnerB).status? = some (Except.error ()) ∧
    (main wSettings wReadDir wRunnerPass).status? = some (Except.ok ()) := by
  constructor
  · exact (C1_aggregate_iff_all_passed wSettings wReadDir wRunnerB "tests"
      wInputs wConfig rfl rfl rfl (by decide)).2
      ⟨sampleInput "file2", by decide, "type mismatch", by decide⟩
  · exact (C1_aggregate_iff_all_passed wSettings wReadDir wRunnerPass "tests"
      wInputs wConfig rfl rfl rfl (by decide)).1.mpr (fun t _ => rfl)

/-- C2: a `failed` outcome at position `k` does not stop the loop — every
later input `j > k` is still invoked and still gets its status line. -/
theorem C2_continue_on_error
    (run : TestInput → RunOutcome) (inputs : List TestInput)
    (hnames : ∀ t ∈ inputs, (TestInput.fileName? t).isSome = true)
    (k : Nat) (hk : k < inputs.length) (e : String)
    (hfail : run (inputs.get ⟨k, hk⟩) = RunOutcome.failed e) :
    ∀ j, ∀ hj : j < inputs.length, k < j →
      Event.invoke (inputs.get ⟨j, hj⟩)
          ∈ (mainLoop run inputs (Except.ok ())).1 ∧
      Event.line (statusLine run (inputs.get ⟨j, hj⟩))
          ∈ (mainLoop run inputs (Except.ok ())).1 := by
  intro j hj _
  have hmem : inputs.get ⟨j, hj⟩ ∈ inputs := List.get_mem inputs j hj
  rw [mainLoop_eq_of_names run inputs (Except.ok ()) hnames]
  constructor
  · exact List.mem_flatMap.mpr ⟨_, hmem, by simp [testEvents]⟩
  · refine List.mem_flatMap.mpr ⟨_, hmem, ?_⟩
    cases hru : run (inputs.get ⟨j, hj⟩) <;>
      simp only [List.get_eq_getElem] at hru <;>
      simp [testEvents, reportLines, statusLine, hru]

/-- C2 witness: with `file1` failing, `file2` (position 1) is still
invoked and still announced. -/
theorem C2_witness :
    Event.invoke (wInputs.get ⟨1, by decide⟩)
        ∈ (mainLoop wRun2 wInputs (Except.ok ())).1 ∧
    Event.line (statusLine wRun2 (wInputs.get ⟨1, by decide⟩))
        ∈ (mainLoop wRun2 wInputs (Except.ok ())).1 :=
  C2_continue_on_error wRun2 wInputs (by decide) 0 (by decide) "boom"
    (by decide) 1 (by decide) (by decide)

/-- C3: with every name derivable, the loop trace is the per-input blocks
in discovery order — one invocation, then exactly one status line
`"<name>: passed"` or `"<name>: failed"` (`<name>` the last path segment),
then the diagnostic line on failure only; hence the printed lines are the
report blocks in order. -/
theorem C3_output_lines
    (run : TestInput → RunOutcome) (inputs : List TestInput)
    (hnames : ∀ t ∈ inputs, (TestInput.fileName? t).isSome = true) :
    (mainLoop run inputs (Except.ok ())).1
      = inputs.flatMap (fun t =>
          Event.invoke t ::
          Event.line (statusLine run t) ::
          (match run t with
           | RunOutcome.passed => []
           | RunOutcome.failed e => [Event.line e])) ∧
    printedLines (mainLoop run inputs (Except.ok ())).1
      = inputs.flatMap (fun t => reportLines run (t.fileName?.getD "") t) := by
  have hblocks : testEvents run = fun t =>
      Event.invoke t ::
      Event.line (statusLine run t) ::
      (match run t with
       | RunOutcome.passed => []
       | RunOutcome.failed e => [Event.line e]) := by
    funext t
    cases hrt : run t <;>
      simp [testEvents, reportLines, statusLine, hrt]
  rw [mainLoop_eq_of_names run inputs (Except.ok ()) hnames]
  exact ⟨by rw [← hblocks], printedLines_flatMap run inputs⟩

/-- C3 witness: Scenario B printout, computed at the fixtures. -/
theorem C3_witness :
    (mainLoop wRun2 wInputs (Except.ok ())).1
      = wInputs.flatMap (fun t =>
          Event.invoke t ::
          Event.line (statusLine wRun2 t) ::
          (match wRun2 t with
           | RunOutcome.passed => []
           | RunOutcome.failed e => [Event.line e])) ∧
    printedLines (mainLoop wRun2 wInputs (Except.ok ())).1
      = wInputs.flatMap
          (fun t => reportLines wRun2 (t.fileName?.getD "") t) :=
  C3_output_lines wRun2 wInputs (by decide)

/-- C4: if `test_dir` resolves but listing it fails, the run dies at the
`read_dir` unwrap: the only event is the listing attempt, zero backend
invocations, zero printed lines, and a panic (never a successful exit). -/
theorem C4_discovery_failure_fatal
    (s : Settings) (rd : String → Option (List TestInput))
    (runner : LLDBConfig → TestInput → RunOutcome) (dir : String)
    (h1 : s.test_dir = some dir) (h2 : rd dir = none) :
    main s rd runner = MainResult.fatal [Event.readDirAttempt dir] ∧
    invokedInputs (main s rd runner).events = [] ∧
    printedLines (main s rd runner).events = [] ∧
    (main s rd runner).status? = none := by
  have key : main s rd runner = MainResult.fatal [Event.readDirAttempt dir] := by
    simp [main, h1, h2]
  rw [key]
  exact ⟨rfl, rfl, rfl, rfl⟩

/-- C4 witness: a settings store pointing at a path no listing succeeds
on. -/
theorem C4_witness :
    main wSettings (fun _ => none) wRunnerPass
        = MainResult.fatal [Event.readDirAttempt "tests"] ∧
    invokedInputs (main wSettings (fun _ => none) wRunnerPass).events = [] ∧
    printedLines (main wSettings (fun _ => none) wRunnerPass).events = [] ∧
    (main wSettings (fun _ => none) wRunnerPass).status? = none :=
  C4_discovery_failure_fatal wSettings (fun _ => none) wRunnerPass "tests"
    rfl rfl

/-- C5: an empty directory listing yields zero status lines, zero backend
invocations, and a normal exit with the vacuous `Ok` aggregate. -/
theorem C5_empty_dir_vacuous_success
    (s : Settings) (rd : String → Option (List TestInput))
    (runner : LLDBConfig → TestInput → RunOutcome)
    (dir : String) (config : LLDBConfig)
    (h1 : s.test_dir = some dir) (h2 : rd dir = some [])
    (h3 : buildConfig s = some config) :
    main s rd runner
        = MainResult.exit [Event.readDirAttempt dir] (Except.ok ()) ∧
    printedLines (main s rd runner).events = [] ∧
    invokedInputs (main s rd runner).events = [] := by
  have key : main s rd runner
      = MainResult.exit [Event.readDirAttempt dir] (Except.ok ()) := by
    simp [main, h1, h2, h3, mainLoop]
  rw [key]
  exact ⟨rfl, rfl, rfl⟩

/-- C5 witness: the fixture settings over a listing that returns no
entries. -/
theorem C5_witness :
    main wSettings (fun _ => some []) wRunnerPass
        = MainResult.exit [Event.readDirAttempt "tests"] (Except.ok ()) ∧
    printedLines (main wSettings (fun _ => some []) wRunnerPass).events
        = [] ∧
    invokedInputs (main wSettings (fun _ => some []) wRunnerPass).events
        = [] :=
  C5_empty_dir_vacuous_success wSettings (fun _ => some []) wRunnerPass
    "tests" wConfig rfl rfl rfl

/-- C6: `lldb_python` is the sole optional key — when the required keys
resolve, the config builds and `lldb_python` defaults through
`unwrap_or_default` (empty string when absent); when any required key
(`test_dir` included) is missing or mismatched, the run panics with zero
backend invocations and zero printed lines. -/
theorem C6_lldb_python_sole_optional
    (s : Settings) (rd : String → Option (List TestInput))
    (runner : LLDBConfig → TestInput → RunOutcome) :
    (requiredPresent s →
      ∃ c, buildConfig s = some c ∧ c.lldb_python = s.lldb_python.getD "") ∧
    (¬ requiredPresent s →
      invokedInputs (main s rd runner).events = [] ∧
      printedLines (main s rd runner).events = [] ∧
      (main s rd runner).status? = none) := by
  constructor
  · rintro ⟨htd, hpp, hbm, hlk, hout, hnat⟩
    obtain ⟨pp, hpp'⟩ := Option.isSome_iff_exists.mp hpp
    obtain ⟨bm, hbm'⟩ := Option.isSome_iff_exists.mp hbm
    obtain ⟨lk, hlk'⟩ := Option.isSome_iff_exists.mp hlk
    obtain ⟨out, hout'⟩ := Option.isSome_iff_exists.mp hout
    obtain ⟨nat, hnat'⟩ := Option.isSome_iff_exists.mp hnat
    exact ⟨⟨pp, bm, s.lldb_python.getD "", lk, out, nat⟩,
      by simp [buildConfig, hpp', hbm', hlk', hout', hnat'], rfl⟩
  · intro h
    cases hd : s.test_dir with
    | none =>
        have key : main s rd runner = MainResult.fatal [] := by
          simp [main, hd]
        rw [key]; exact ⟨rfl, rfl, rfl⟩
    | some dir =>
      cases hrd : rd dir with
      | none =>
          have key : main s rd runner
              = MainResult.fatal [Event.readDirAttempt dir] := by
            simp [main, hd, hrd]
          rw [key]; exact ⟨rfl, rfl, rfl⟩
      | some inputs =>
          have hbc : buildConfig s = none := by
            cases hb : buildConfig s with
            | none => rfl
            | some c =>
                exfalso
                apply h
                have h5 := (buildConfig_isSome_iff s).mp (by simp [hb])
                exact ⟨by simp [hd], h5.1, h5.2.1, h5.2.2.1, h5.2.2.2.1,
                  h5.2.2.2.2⟩
          have key : main s rd runner
              = MainResult.fatal [Event.readDirAttempt dir] := by
            simp [main, hd, hrd, hbc]
          rw [key]; exact ⟨rfl, rfl, rfl⟩

/-- Settings with a required key (`pretty_printers_path`) missing while
`test_dir` still resolves. -/
def cexSettings : Settings :=
  ⟨some "tests", none, some "bm", none, some "lk", some false, some true⟩

/-- C6 witness: the fixture settings (with `lldb_python` absent) build a
config with empty `lldb_python`; dropping `pretty_printers_path` gives a
panic with no invocations and no output. -/
theorem C6_witness :
    (∃ c, buildConfig wSettings = some c ∧
      c.lldb_python = wSettings.lldb_python.getD "") ∧
    (invokedInputs (main cexSettings wReadDir wRunnerPass).events = [] ∧
     printedLines (main cexSettings wReadDir wRunnerPass).events = [] ∧
     (main cexSettings wReadDir wRunnerPass).status? = none) := by
  constructor
  · exact (C6_lldb_python_sole_optional wSettings wReadDir wRunnerPass).1
      (by decide)
  · exact (C6_lldb_python_sole_optional cexSettings wReadDir wRunnerPass).2
      (by decide)

/-- C7 counterexample: with `test_dir` resolving but
`pretty_printers_path` absent, the directory listing IS attempted — the
`read_dir` call happens before the `LLDBConfig` field unwraps in the
source, so a Configuration-Record error does not abort before discovery. -/
theorem C7_counterexample :
    cexSettings.pretty_printers_path = none ∧
    Event.readDirAttempt "tests"
      ∈ (main cexSettings wReadDir wRunnerPass).events := by
  decide

/-- C7 (amended): every configuration error is fatal before any backend
invocation or printed line; a failed `test_dir` lookup aborts before the
directory listing, while a missing required config-record key aborts only
after the listing has been attempted (but still before any test runs). -/
theorem C7_config_error_abort_points
    (s : Settings) (rd : String → Option (List TestInput))
    (runner : LLDBConfig → TestInput → RunOutcome) :
    (s.test_dir = none → main s rd runner = MainResult.fatal []) ∧
    (∀ dir inputs, s.test_dir = some dir → rd dir = some inputs →
      buildConfig s = none →
      main s rd runner = MainResult.fatal [Event.readDirAttempt dir]) := by
  constructor
  · intro h
    simp [main, h]
  · intro dir inputs h1 h2 h3
    simp [main, h1, h2, h3]

/-- C7 witness: both abort points at concrete settings stores. -/
theorem C7_witness :
    main { cexSettings with test_dir := none } wReadDir wRunnerPass
        = MainResult.fatal [] ∧
    main cexSettings wReadDir wRunnerPass
        = MainResult.fatal [Event.readDirAttempt "tests"] := by
  constructor
  · exact (C7_config_error_abort_points { cexSettings with test_dir := none }
      wReadDir wRunnerPass).1 rfl
  · exact (C7_config_error_abort_points cexSettings wReadDir wRunnerPass).2
      "tests" wInputs (by decide) (by decide) (by decide)

/-- C8: an input with no derivable file name is unrecoverable — the loop
panics right there: no status is produced, the invocations stop at that
input (later inputs are never run), and nothing is printed for it (only
the earlier inputs' report blocks exist). -/
theorem C8_underivable_name_fatal
    (run : TestInput → RunOutcome) (pre : List TestInput) (t : TestInput)
    (post : List TestInput) (st : Except Unit Unit)
    (hpre : ∀ u ∈ pre, (TestInput.fileName? u).isSome = true)
    (ht : TestInput.fileName? t = none) :
    (mainLoop run (pre ++ t :: post) st).2 = none ∧
    invokedInputs (mainLoop run (pre ++ t :: post) st).1 = pre ++ [t] ∧
    printedLines (mainLoop run (pre ++ t :: post) st).1
      = pre.flatMap (fun u => reportLines run (u.fileName?.getD "") u) := by
  rw [mainLoop_fatal_split run pre t post st hpre ht]
  refine ⟨rfl, ?_, ?_⟩
  · rw [invokedInputs_append, invokedInputs_flatMap run pre]
    simp [invokedInputs, List.filterMap_cons]
  · rw [printedLines_append, printedLines_flatMap run pre]
    simp [printedLines]

/-- C8 witness: a non-Unicode file name in the middle of three inputs. -/
theorem C8_witness :
    (mainLoop wRun2 ([sampleInput "file1"] ++ badInput :: [sampleInput "file3"])
        (Except.ok ())).2 = none ∧
    invokedInputs (mainLoop wRun2
        ([sampleInput "file1"] ++ badInput :: [sampleInput "file3"])
        (Except.ok ())).1 = [sampleInput "file1"] ++ [badInput] ∧
    printedLines (mainLoop wRun2
        ([sampleInput "file1"] ++ badInput :: [sampleInput "file3"])
        (Except.ok ())).1
      = [sampleInput "file1"].flatMap
          (fun u => reportLines wRun2 (u.fileName?.getD "") u) :=
  C8_underivable_name_fatal wRun2 [sampleInput "file1"] badInput
    [sampleInput "file3"] (Except.ok ()) (by decide) (by decide)

/-- C9: the backend runs before the name is derived — for an input with no
derivable file name the invocation still happens (the trace ends in
exactly that invocation), and every printed line belongs to an earlier
input: no status line is ever printed for it. -/
theorem C9_backend_invoked_before_name
    (run : TestInput → RunOutcome) (pre : List TestInput) (t : TestInput)
    (post : List TestInput) (st : Except Unit Unit)
    (hpre : ∀ u ∈ pre, (TestInput.fileName? u).isSome = true)
    (ht : TestInput.fileName? t = none) :
    Event.invoke t ∈ (mainLoop run (pre ++ t :: post) st).1 ∧
    (mainLoop run (pre ++ t :: post) st).1
      = pre.flatMap (testEvents run) ++ [Event.invoke t] ∧
    ∀ s, Event.line s ∈ (mainLoop run (pre ++ t :: post) st).1 →
      Event.line s ∈ pre.flatMap (testEvents run) := by
  rw [mainLoop_fatal_split run pre t post st hpre ht]
  refine ⟨by simp, rfl, ?_⟩
  intro s hs
  rcases List.mem_append.mp hs with h | h
  · exact h
  · exact absurd h (by simp)

/-- C9 witness: the bad input's backend invocation is in the trace, which
ends at exactly that invocation. -/
theorem C9_witness :
    Event.invoke badInput ∈ (mainLoop wRun2
        ([sampleInput "file1"] ++ badInput :: [sampleInput "file3"])
        (Except.ok ())).1 ∧
    (mainLoop wRun2
        ([sampleInput "file1"] ++ badInput :: [sampleInput "file3"])
        (Except.ok ())).1
      = [sampleInput "file1"].flatMap (testEvents wRun2)
          ++ [Event.invoke badInput] :=
  ⟨(C9_backend_invoked_before_name wRun2 [sampleInput "file1"] badInput
      [sampleInput "file3"] (Except.ok ()) (by decide) (by decide)).1,
   (C9_backend_invoked_before_name wRun2 [sampleInput "file1"] badInput
      [sampleInput "file3"] (Except.ok ()) (by decide) (by decide)).2.1⟩

/-- C10: the aggregate is monotone — the loop starts from `Ok` (the empty
run returns it unchanged), a loop started in `Err` can only end in `Err`
(or panic), and the `passed` branch of an iteration returns the status it
was given, never writing to it. -/
theorem C10_status_monotone
    (run : TestInput → RunOutcome) (inputs : List TestInput) :
    (mainLoop run [] (Except.ok ())).2 = some (Except.ok ()) ∧
    ((mainLoop run inputs (Except.error ())).2 = none ∨
      (mainLoop run inputs (Except.error ())).2
        = some (Except.error ())) ∧
    (∀ t st name, TestInput.fileName? t = some name →
      run t = RunOutcome.passed → (processTest run t st).2 = some st) := by
  refine ⟨rfl, ?_, ?_⟩
  · induction inputs with
    | nil => exact Or.inr rfl
    | cons t rest ih =>
      cases hname : TestInput.fileName? t with
      | none => exact Or.inl (by simp [mainLoop, processTest, hname])
      | some name =>
        cases hrt : run t with
        | passed =>
          rcases ih with h | h
          · exact Or.inl (by simp [mainLoop, processTest, hname, hrt, h])
          · exact Or.inr (by simp [mainLoop, processTest, hname, hrt, h])
        | failed e =>
          rcases ih with h | h
          · exact Or.inl (by simp [mainLoop, processTest, hname, hrt, h])
          · exact Or.inr (by simp [mainLoop, processTest, hname, hrt, h])
  · intro t st name hname hrt
    simp [processTest, hname, hrt]

/-- C10 witness: a run with an early failure stays `Err` to the end, and a
`passed` iteration hands back the `Err` it received. -/
theorem C10_witness :
    (mainLoop wRun2 wInputs (Except.error ())).2
        = some (Except.error ()) ∧
    (processTest wRun2 (sampleInput "file2") (Except.error ())).2
        = some (Except.error ()) := by
  constructor
  · rcases (C10_status_monotone wRun2 wInputs).2.1 with h | h
    · exact absurd h (by decide)
    · exact h
  · exact (C10_status_monotone wRun2 wInputs).2.2 (sampleInput "file2")
      (Except.error ()) "file2" (by decide) (by decide)

end PrettyPrinterTests
